import Mathlib

/-!
# Verification of the clai-cli tool-augmented chat orchestrator

Shallow embedding, in Lean 4, of the security- and correctness-critical parts
of the `clai` terminal LLM client:

* the path sandbox (`src/lib/sandbox.ts`: `validatePath`, `validateFileSize`),
* the tool executor (`src/lib/tools.ts`: `readFile`, `searchFiles`,
  `searchRecursive`, `matchesPattern`, `webFetch`),
* the ignore-file predicate (`src/lib/context-files.ts`: `shouldIgnoreFile`),
* the retry/backoff controller (`retry.ts`: `isRetryableError`,
  `retryWithBackoff`),
* the per-turn tool round-trip loop (`src/lib/claude.ts`: `streamChat`),
* the pricing epilogues of both provider adapters (`src/lib/claude.ts` and
  the Groq adapter).

Effectful operations (filesystem probing, symlink resolution, DNS, the
provider network stream, user approval) are passed in as explicit function
parameters, so every definition is a pure, executable Lean function.
JavaScript strings are modelled as Lean `String`; the ASCII-only regular
expressions of the source are translated to executable predicates;
JavaScript numbers are modelled as `Nat`/`Rat` where the source only ever
manipulates non-negative integral quantities / decimal prices.
-/

/-! ## String helpers

Models of the JavaScript string primitives used by the source
(`String.prototype.startsWith/endsWith/includes`, `toLowerCase` on ASCII
data). They are defined over `String.data` so that they evaluate by `decide`.
-/

/-- Model of JavaScript `s.startsWith(pre)`. -/
def strStartsWith (s pre : String) : Bool :=
  pre.data.isPrefixOf s.data

/-- Model of JavaScript `s.endsWith(suf)`. -/
def strEndsWith (s suf : String) : Bool :=
  suf.data.isSuffixOf s.data

/-- `pat` occurs as a contiguous run inside `s` (Boolean infix test). -/
def charListInfix (pat : List Char) : List Char → Bool
  | [] => pat.isEmpty
  | c :: rest => pat.isPrefixOf (c :: rest) || charListInfix pat rest

/-- Model of JavaScript `s.includes(pat)` / an unanchored regex literal. -/
def strContains (s pat : String) : Bool :=
  charListInfix pat.data s.data

/-- ASCII lower-casing of one character (JS `toLowerCase` / the regex `i`
flag only ever act on ASCII data in this code base). -/
def asciiLowerChar (c : Char) : Char :=
  if 65 ≤ c.toNat ∧ c.toNat ≤ 90 then Char.ofNat (c.toNat + 32) else c

/-- ASCII lower-casing of a string. -/
def asciiLower (s : String) : String :=
  ⟨s.data.map asciiLowerChar⟩

/-- Drop the last `n` characters of a string (JS `slice(0, -n)` analogue). -/
def strDropRight (s : String) (n : Nat) : String :=
  ⟨s.data.take (s.data.length - n)⟩

/-! ## Path model

POSIX paths, as manipulated by `node:path` (`resolve`, `relative`,
`basename`, `sep = "/"`). A path is canonicalized into its list of
segments; `resolve` normalizes `.` and `..` (clamping `..` at the root,
as `path.resolve` does for absolute paths), `relative` strips the common
prefix and emits one `..` per remaining segment of the origin.
-/

/-- Split a string at every `/`, keeping empty components
(JS `s.split("/")`). -/
def splitOnSlashAux : List Char → List Char → List String
  | [], acc => [⟨acc.reverse⟩]
  | '/' :: rest, acc => (⟨acc.reverse⟩ : String) :: splitOnSlashAux rest []
  | c :: rest, acc => splitOnSlashAux rest (c :: acc)

/-- JS `s.split("/")` (always returns at least one component). -/
def splitOnSlash (s : String) : List String :=
  splitOnSlashAux s.data []

/-- Path segments of `s`: split at `/` and drop empty components. -/
def splitSegs (s : String) : List String :=
  (splitOnSlash s).filter (fun t => t ≠ "")

/-- Normalize a segment list: drop `.`, resolve `..` against the
accumulated prefix, clamping at the root (the `path.resolve`
normalization for absolute paths). -/
def normSegs (segs : List String) : List String :=
  segs.foldl
    (fun acc seg =>
      if seg = "." then acc
      else if seg = ".." then acc.dropLast
      else acc ++ [seg])
    []

/-- Render an absolute path from its segments. -/
def joinSegs (segs : List String) : String :=
  "/" ++ String.intercalate "/" segs

/-- Model of `path.resolve(cwd, p)` for an absolute, normalized `cwd`. -/
def resolvePath (cwd p : String) : String :=
  if strStartsWith p "/" then joinSegs (normSegs (splitSegs p))
  else joinSegs (normSegs (splitSegs cwd ++ splitSegs p))

/-- Drop the longest common prefix of two segment lists. -/
def dropCommonPrefix : List String → List String → List String × List String
  | a :: as, b :: bs =>
      if a = b then dropCommonPrefix as bs else (a :: as, b :: bs)
  | as, bs => (as, bs)

/-- Model of `path.relative(fromP, toP)` for absolute paths. -/
def relativePath (fromP toP : String) : String :=
  let f := normSegs (splitSegs fromP)
  let t := normSegs (splitSegs toP)
  let (fr, tr) := dropCommonPrefix f t
  String.intercalate "/" (List.replicate fr.length ".." ++ tr)

/-- Model of `path.basename` on a normalized absolute path. -/
def baseName (s : String) : String :=
  (splitSegs s).getLastD ""

/-! ## Path sandbox (`src/lib/sandbox.ts`)

`validatePath` is embedded as a pure function of:
* `cwd` — the working directory (`process.cwd()`, read once at start),
* `home` — `process.env.HOME ?? ""`,
* `realpath` — the filesystem's symlink resolver (`realpathSync`);
  `none` models the `catch` branch (the path does not exist on disk),
* `filePath` — the path to validate.
-/

/-- `SandboxResult` of `sandbox.ts` (`requiresApproval` absent ≡ `false`). -/
structure SandboxResult where
  allowed : Bool
  requiresApproval : Bool := false
  reason : Option String := none
deriving Repr, DecidableEq

/-- `BLOCKED_PATHS` of `sandbox.ts`. -/
def BLOCKED_PATHS : List String :=
  ["/etc", "/root", "/var", "/sys", "/proc", "/boot", "/usr", "/sbin",
   "/bin", "/lib", "/lib64", "/opt", "/dev", "/run", "/tmp", "/snap",
   "/mnt", "/media", "/System", "/Library", "/Applications", "/Volumes",
   "/private/etc", "/private/var"]

/-- `BLOCKED_HOME_DIRS` of `sandbox.ts`. -/
def BLOCKED_HOME_DIRS : List String :=
  [".ssh", ".gnupg", ".gpg", ".aws", ".azure", ".gcloud", ".docker",
   ".kube", ".config/gcloud", ".config/gh", ".password-store",
   ".local/share/keyrings", ".bashrc", ".zshrc", ".profile"]

/-- Disjunction of the `BLOCKED_PATTERNS` regexes of `sandbox.ts` applied to
one string (`/\.pem$/`, `/\.p12$/`, `/id_rsa/`, `/id_ed25519/`,
`/id_ecdsa/`, `/id_dsa/`, `/\.ppk$/`). -/
def blockedPatternTest (s : String) : Bool :=
  strEndsWith s ".pem" || strEndsWith s ".p12" || strContains s "id_rsa" ||
  strContains s "id_ed25519" || strContains s "id_ecdsa" ||
  strContains s "id_dsa" || strEndsWith s ".ppk"

/-- Disjunction of the `SENSITIVE_PATTERNS` regexes of `sandbox.ts` applied
to one string.  Patterns carrying the `i` flag are tested against the
ASCII-lowered string; `/\.env($|\.)/` means "ends with `.env` or contains
`.env.`"; `/secrets?\.ya?ml$/i` means "(case-insensitively) ends with one of
`secret.yml`, `secret.yaml`, `secrets.yml`, `secrets.yaml`";
`/auth.*\.json$/i` means "(case-insensitively) ends with `.json` with an
occurrence of `auth` before that suffix"; `/api[_-]?key/i` means
"(case-insensitively) contains `apikey`, `api_key` or `api-key`". -/
def sensitivePatternTest (s : String) : Bool :=
  let t := asciiLower s
  (strEndsWith s ".env" || strContains s ".env.") ||
  strEndsWith s ".key" ||
  strContains t "credentials" ||
  (strEndsWith t "secret.yml" || strEndsWith t "secret.yaml" ||
   strEndsWith t "secrets.yml" || strEndsWith t "secrets.yaml") ||
  strEndsWith s ".npmrc" ||
  strEndsWith s ".netrc" ||
  strEndsWith s ".git/config" ||
  strEndsWith s ".git-credentials" ||
  (strEndsWith t ".json" && strContains (strDropRight t 5) "auth") ||
  strContains t "token" ||
  strContains t "password" ||
  (strContains t "api_key" || strContains t "api-key" || strContains t "apikey")

/-- `validatePath` of `sandbox.ts`, rule by rule, first match wins. -/
def validatePath (cwd home : String) (realpath : String → Option String)
    (filePath : String) : SandboxResult :=
  let absPath := resolvePath cwd filePath
  let relPath := relativePath cwd absPath
  -- Block path traversal outside CWD
  if strStartsWith relPath ".." ||
      (!strStartsWith absPath (cwd ++ "/") && absPath ≠ cwd) then
    ⟨false, false, some "Access denied: path is outside working directory"⟩
  -- Resolve symlinks and re-check (if the path exists on disk)
  else if (match realpath absPath with
           | some realPath =>
               !strStartsWith realPath (cwd ++ "/") && realPath ≠ cwd
           | none => false) then
    ⟨false, false, some "Access denied: path resolves outside working directory"⟩
  -- Block system directories
  else if BLOCKED_PATHS.any (fun blocked =>
      strStartsWith absPath (blocked ++ "/") || absPath = blocked) then
    ⟨false, false, some "Access denied: system directory"⟩
  -- Block sensitive home directories
  else if home ≠ "" && BLOCKED_HOME_DIRS.any (fun dir =>
      let fullBlocked := resolvePath home dir
      strStartsWith absPath (fullBlocked ++ "/") || absPath = fullBlocked) then
    ⟨false, false, some "Access denied: sensitive directory"⟩
  -- Block critical file patterns (never allow)
  else if blockedPatternTest (baseName absPath) || blockedPatternTest absPath then
    ⟨false, false, some "Access denied: critical security file"⟩
  -- Check sensitive file patterns (require approval)
  else if sensitivePatternTest (baseName absPath) || sensitivePatternTest absPath then
    ⟨true, true, some "Warning: sensitive file detected"⟩
  -- Block node_modules
  else if strContains absPath "/node_modules/" then
    ⟨false, false, some "Access denied: node_modules directory"⟩
  else
    ⟨true, false, none⟩

/-- A path string is inside the sandbox: it is the working directory itself
or carries the `cwd ++ "/"` prefix (exactly the prefix rule `sandbox.ts`
checks with `startsWith(CWD + sep)`). -/
def insideWorkdir (cwd p : String) : Bool :=
  p = cwd || strStartsWith p (cwd ++ "/")

/-- `MAX_FILE_SIZE` of `sandbox.ts` (500 KiB). -/
def MAX_FILE_SIZE : Nat := 500 * 1024

/-- `validateFileSize` of `sandbox.ts`; `fsSize` models `statSync(..).size`,
`none` models a stat failure (treated as allowed). -/
def validateFileSize (fsSize : String → Option Nat) (cwd filePath : String) :
    SandboxResult :=
  let absPath := resolvePath cwd filePath
  match fsSize absPath with
  | some size =>
      if size > MAX_FILE_SIZE then
        ⟨false, false,
          some ("File too large: " ++ toString ((size + 512) / 1024) ++
                "KB (max " ++ toString (MAX_FILE_SIZE / 1024) ++ "KB)")⟩
      else ⟨true, false, none⟩
  | none => ⟨true, false, none⟩

/-! ## Tool results and `read_file` (`src/lib/tools.ts`)

`readFile` consults the sandbox, then (unless already approved) returns a
`requiresApproval` result *without touching the disk*, then checks the size
ceiling, then reads.  The filesystem is passed in as `fsSize` (stat) and
`fsRead` (`readFileSync`; `none` models a thrown read error).  The `reads`
component is the list of paths for which a `readFileSync` call was issued,
making "no disk access" a provable statement.
-/

/-- `ToolResult` of `tools.ts` (`requiresApproval` absent ≡ `false`). -/
structure ToolResult where
  output : String
  isError : Bool
  requiresApproval : Bool := false
deriving Repr, DecidableEq

/-- A tool result together with the disk reads performed to produce it. -/
structure ReadEffect where
  result : ToolResult
  reads : List String
deriving Repr, DecidableEq

/-- `readFile` of `tools.ts`. -/
def readFileModel (cwd home : String) (realpath : String → Option String)
    (fsSize : String → Option Nat) (fsRead : String → Option String)
    (filePath : String) (skipApprovalCheck : Bool) : ReadEffect :=
  let absPath := resolvePath cwd filePath
  let pathCheck := validatePath cwd home realpath absPath
  if !pathCheck.allowed then
    ⟨⟨pathCheck.reason.getD "", true, false⟩, []⟩
  else if pathCheck.requiresApproval && !skipApprovalCheck then
    ⟨⟨"File \"" ++ relativePath cwd absPath ++
        "\" may contain sensitive data (credentials, secrets, etc.)",
      false, true⟩, []⟩
  else
    let sizeCheck := validateFileSize fsSize cwd absPath
    if !sizeCheck.allowed then
      ⟨⟨sizeCheck.reason.getD "", true, false⟩, []⟩
    else
      match fsRead absPath with
      | some content =>
          ⟨⟨"File: " ++ relativePath cwd absPath ++ "\n\n" ++ content,
            false, false⟩, [absPath]⟩
      | none =>
          ⟨⟨"Error reading file: read failed", true, false⟩, [absPath]⟩

/-! ## `web_fetch` SSRF gate (`src/lib/tools.ts`, `webFetch`)

Everything `webFetch` does before the `curl` subprocess is spawned:
URL parsing (modelled as an external `parse` function, WHATWG `new URL`),
the scheme allow-list, and the private-host pattern list.  The outcome
`proceed` marks exactly the point where the source issues the outbound
network request; `blocked`/`invalidUrl` return a `ToolResult` with
`isError = true` without any network activity.
-/

/-- The `protocol` and `hostname` of a parsed URL. -/
structure ParsedUrl where
  protocol : String
  hostname : String
deriving Repr, DecidableEq

/-- What `webFetch` decides before any network request. -/
inductive FetchGate where
  | invalidUrl
  | blocked (msg : String)
  | proceed (hostname : String)
deriving Repr, DecidableEq

/-- The `privatePatterns` list of `webFetch`, applied to the lower-cased
hostname: `/^localhost$/i`, `/^127\./`, `/^10\./`,
`/^172\.(1[6-9]|2[0-9]|3[0-1])\./`, `/^192\.168\./`, `/^169\.254\./`,
`/^::1$/`, `/^fe80:/i`, `/^fc00:/i`. -/
def privateHostPattern (hostname : String) : Bool :=
  hostname = "localhost" ||
  strStartsWith hostname "127." ||
  strStartsWith hostname "10." ||
  (List.range' 16 16).any
    (fun d => strStartsWith hostname ("172." ++ toString d ++ ".")) ||
  strStartsWith hostname "192.168." ||
  strStartsWith hostname "169.254." ||
  hostname = "::1" ||
  strStartsWith hostname "fe80:" ||
  strStartsWith hostname "fc00:"

/-- The pre-network phase of `webFetch`. -/
def webFetchGate (parse : String → Option ParsedUrl) (url : String) :
    FetchGate :=
  match parse url with
  | none => .invalidUrl
  | some parsed =>
      if !(parsed.protocol = "http:" || parsed.protocol = "https:") then
        .blocked "Only HTTP/HTTPS URLs are supported"
      else
        let hostname := asciiLower parsed.hostname
        if privateHostPattern hostname then
          .blocked "Access to private networks and localhost is not allowed"
        else
          .proceed hostname

/-- A literal address string is loopback/private/link-local.  This is the
*specification-side* notion used by the SSRF claim ("hostname resolves to a
loopback, private, or link-local address"): the DNS answer itself, as an IP
string, falls in one of those ranges. -/
def isPrivateAddress (addr : String) : Bool :=
  privateHostPattern (asciiLower addr)

/-! ## Retry/backoff controller (`retry.ts`)

JavaScript error values are modelled by the fields the controller actually
inspects; the attempts of the wrapped async operation are modelled as a
function from the attempt index to that attempt's outcome.  The `delays`
component records every `setTimeout` wait, in order, making the backoff
sequence a provable statement.  The numeric options are modelled as `Nat`
(the source uses non-negative integral milliseconds).
-/

/-- A JavaScript error value, restricted to the fields `retry.ts` reads:
whether it is a non-null object, whether it is an `Error` instance, its
`message`, and its optional `status` / `code` fields. -/
structure JsError where
  isObject : Bool := true
  isErrorInstance : Bool := false
  message : String := ""
  status : Option Int := none
  code : Option String := none
deriving Repr, DecidableEq

/-- The `networkErrors` codes of `isRetryableError`. -/
def NETWORK_ERROR_CODES : List String :=
  ["ECONNRESET", "ENOTFOUND", "ETIMEDOUT", "ECONNREFUSED"]

/-- `isRetryableError` of `retry.ts`: network-reset-class messages on
`Error` instances are retryable; otherwise only a numeric `status` in
`[500, 600)` is. -/
def isRetryableError (e : JsError) : Bool :=
  if !e.isObject then false
  else if e.isErrorInstance &&
      NETWORK_ERROR_CODES.any (fun c => strContains e.message c) then true
  else
    match e.status with
    | some s => decide (500 ≤ s) && decide (s < 600)
    | none => false

/-- `checkRateLimit` of `retry.ts`, restricted to the rate-limited verdict:
a `status` of 429 or an OpenAI-style `code` of `"rate_limit_exceeded"`. -/
def isRateLimited (e : JsError) : Bool :=
  e.isObject && (e.status = some 429 || e.code = some "rate_limit_exceeded")

/-- Result of a `retryWithBackoff` run: the settled outcome plus every
backoff wait that was performed, in order. -/
structure RetryOutcome (T : Type) where
  result : Except JsError T
  delays : List Nat
deriving Repr

/-- Models the dead `throw lastError` after the `for` loop of
`retryWithBackoff` (unreachable: the final iteration always returns or
throws). -/
def deadError : JsError :=
  ⟨true, false, "retry loop exited without settling", none, none⟩

/-- The attempt loop of `retryWithBackoff`.  `fuel` is the number of loop
iterations still permitted; the wrapper passes `maxRetries + 1`, and the
`attempt = maxRetries` re-throw fires before fuel can run out, so the
`fuel = 0` case is unreachable. -/
def retryAux {T : Type} (op : Nat → Except JsError T)
    (maxRetries initialDelay maxDelay backoffMultiplier : Nat) :
    Nat → Nat → RetryOutcome T
  | 0, _ => ⟨.error deadError, []⟩
  | fuel + 1, attempt =>
      match op attempt with
      | .ok v => ⟨.ok v, []⟩
      | .error e =>
          -- Don't retry if not a retryable error
          if !isRetryableError e then ⟨.error e, []⟩
          -- Don't retry on last attempt
          else if attempt = maxRetries then ⟨.error e, []⟩
          else
            -- Calculate delay with exponential backoff, wait, retry
            let delay :=
              min (initialDelay * backoffMultiplier ^ attempt) maxDelay
            let rest :=
              retryAux op maxRetries initialDelay maxDelay backoffMultiplier
                fuel (attempt + 1)
            ⟨rest.result, delay :: rest.delays⟩

/-- `retryWithBackoff` of `retry.ts` (defaults: `maxRetries = 3`,
`initialDelay = 1000`, `maxDelay = 30000`, `backoffMultiplier = 2`). -/
def retryWithBackoff {T : Type} (op : Nat → Except JsError T)
    (maxRetries : Nat := 3) (initialDelay : Nat := 1000)
    (maxDelay : Nat := 30000) (backoffMultiplier : Nat := 2) :
    RetryOutcome T :=
  retryAux op maxRetries initialDelay maxDelay backoffMultiplier
    (maxRetries + 1) 0

/-! ## Pricing epilogues (`src/lib/claude.ts` and the Groq adapter)

After the round loop, each adapter converts the accumulated token counts
into a cost.  `claude.ts` keeps its own two-entry `PRICING` table and falls
back to `PRICING[DEFAULT_MODEL]` (with a warning) when the model id is
unknown; the provider adapters instead consult the shared model registry
(`providers.ts`, `getModelConfig`) and fall back to a zero-cost entry —
without a warning.  Decimal per-million prices are modelled as exact
rationals.
-/

/-- Per-million-token prices (`{ input, output }`). -/
structure Pricing where
  input : Rat
  output : Rat
deriving Repr, DecidableEq

/-- `MODELS.haiku` id of `claude.ts`. -/
def HAIKU_ID : String := "claude-haiku-4-5-20251001"

/-- `MODELS.sonnet` id of `claude.ts`. -/
def SONNET_ID : String := "claude-sonnet-4-5-20250929"

/-- `DEFAULT_MODEL` of `claude.ts` (the haiku id). -/
def DEFAULT_MODEL : String := HAIKU_ID

/-- The `PRICING` table of `claude.ts`. -/
def PRICING : List (String × Pricing) :=
  [(HAIKU_ID, ⟨4/5, 4⟩), (SONNET_ID, ⟨3, 15⟩)]

/-- JS object indexing `PRICING[model]`. -/
def pricingLookup (model : String) : Option Pricing :=
  (PRICING.find? (fun p => p.1 = model)).map Prod.snd

/-- A computed turn cost together with whether the "Unknown pricing"
warning event was yielded. -/
structure CostOutcome where
  totalCost : Rat
  warned : Bool
deriving Repr, DecidableEq

/-- The cost epilogue of `streamChat` in `claude.ts` (lines 236-255):
warn when the model id has no `PRICING` entry, then price the tokens with
the known entry or with `PRICING[DEFAULT_MODEL]`. -/
def claudeCostTail (model : String) (inputTokens outputTokens : Nat) :
    CostOutcome :=
  let knownPricing := pricingLookup model
  let pricing := knownPricing.getD ((pricingLookup DEFAULT_MODEL).getD ⟨0, 0⟩)
  ⟨(inputTokens : Rat) / 1000000 * pricing.input +
     (outputTokens : Rat) / 1000000 * pricing.output,
   knownPricing.isNone⟩

/-- `ModelConfig` of `providers.ts`. -/
structure ModelConfig where
  id : String
  provider : String
  displayName : String
  contextWindow : Nat
  pricing : Option Pricing
deriving Repr, DecidableEq

/-- The `MODELS` registry of `providers.ts` (short name ↦ config). -/
def MODELS_REGISTRY : List (String × ModelConfig) :=
  [("haiku",
    ⟨HAIKU_ID, "anthropic", "Claude Haiku 4.5", 200000, some ⟨4/5, 4⟩⟩),
   ("sonnet",
    ⟨SONNET_ID, "anthropic", "Claude Sonnet 4.5", 200000, some ⟨3, 15⟩⟩),
   ("llama-3.3",
    ⟨"llama-3.3-70b-versatile", "groq", "Llama 3.3 70B (Groq)", 131072,
     some ⟨0, 0⟩⟩),
   ("gpt-oss",
    ⟨"openai/gpt-oss-120b", "groq", "GPT-OSS 120B (Groq)", 8192,
     some ⟨0, 0⟩⟩),
   ("llama-3.1",
    ⟨"llama-3.1-70b-versatile", "groq", "Llama 3.1 70B (Groq)", 131072,
     some ⟨0, 0⟩⟩),
   ("mixtral",
    ⟨"mixtral-8x7b-32768", "groq", "Mixtral 8x7B (Groq)", 32768,
     some ⟨0, 0⟩⟩)]

/-- `getModelConfig` of `providers.ts`: try the short name, then the id. -/
def getModelConfig (nameOrId : String) : Option ModelConfig :=
  match (MODELS_REGISTRY.find? (fun p => p.1 = nameOrId)).map Prod.snd with
  | some c => some c
  | none => (MODELS_REGISTRY.map Prod.snd).find? (fun m => m.id = nameOrId)

/-- The cost epilogue of `GroqProvider.streamChat` (and of
`AnthropicProvider.streamChat` in `provider-anthropic.ts`):
`getModelConfig(model)?.pricing ?? { input: 0, output: 0 }`, with no
warning event. -/
def groqCostTail (model : String) (inputTokens outputTokens : Nat) :
    CostOutcome :=
  let pricing := ((getModelConfig model).bind ModelConfig.pricing).getD ⟨0, 0⟩
  ⟨(inputTokens : Rat) / 1000000 * pricing.input +
     (outputTokens : Rat) / 1000000 * pricing.output,
   false⟩

/-! ## The tool round-trip loop (`src/lib/claude.ts`, `streamChat`)

One provider round is abstracted to the data the loop actually consumes
from the stream: the concatenated text deltas, the completed `tool_use`
blocks (with their already-parsed inputs), the final `stop_reason`, and
the round's token usage.  The provider is a function of the message
history, so "a provider stub that always requests another tool call" is a
hypothesis about that function.  User approval and tool execution are
likewise explicit functions.  The trace of canonical `StreamEvent`s is
returned, and `processCall` additionally reports whether `executeTool` was
invoked (`executed`), making "the executor is never invoked" provable.
-/

/-- A `tool_use` content block after stream completion (`input` is the
parsed argument record, treated as opaque by the loop). -/
structure ToolCallBlock where
  id : String
  name : String
  input : String
deriving Repr, DecidableEq

/-- An Anthropic `tool_result` block sent back to the API. -/
structure ToolResultBlock where
  toolUseId : String
  content : String
  isError : Bool
deriving Repr, DecidableEq

/-- Message history entries, as far as the loop builds them. -/
inductive Msg where
  | user (content : String)
  | assistant (text : String) (calls : List ToolCallBlock)
  | toolResults (results : List ToolResultBlock)
deriving Repr, DecidableEq

/-- What one provider round delivers once the stream is drained. -/
structure RoundResponse where
  text : String
  calls : List ToolCallBlock
  stopReason : Option String
  inputTokens : Nat
  outputTokens : Nat
deriving Repr, DecidableEq

/-- The canonical `StreamEvent` vocabulary yielded by the loop. -/
inductive Event where
  | textDelta (text : String)
  | toolApprove (name input : String)
  | toolStart (name input : String)
  | toolDone (name input output : String) (isError : Bool)
  | warning (message : String)
deriving Repr, DecidableEq

/-- `MAX_TOOL_ROUNDS` of `claude.ts`. -/
def MAX_TOOL_ROUNDS : Nat := 10

/-- The warning yielded on the last permitted round. -/
def roundsWarning : String :=
  "Reached maximum tool call rounds (10). Response may be incomplete."

/-- Processing of one `tool_use` block (`claude.ts` lines 143-207):
`write_file` first yields a `tool_approve` suspension; a denial records the
fixed "User denied this file write." error result and skips execution;
otherwise the tool is executed with start/done events.  `executed` is
`some block` exactly when `executeTool` ran. -/
def processCall (approve : ToolCallBlock → Bool)
    (exec : ToolCallBlock → ToolResult) (block : ToolCallBlock) :
    List Event × ToolResultBlock × Option ToolCallBlock :=
  if block.name = "write_file" then
    if approve block then
      let result := exec block
      ⟨[.toolApprove block.name block.input,
        .toolStart block.name block.input,
        .toolDone block.name block.input result.output result.isError],
       ⟨block.id, result.output, result.isError⟩, some block⟩
    else
      ⟨[.toolApprove block.name block.input,
        .toolDone block.name block.input "Denied by user" true],
       ⟨block.id, "User denied this file write.", true⟩, none⟩
  else
    let result := exec block
    ⟨[.toolStart block.name block.input,
      .toolDone block.name block.input result.output result.isError],
     ⟨block.id, result.output, result.isError⟩, some block⟩

/-- Processing of all tool calls of one round, in stream order. -/
def processRound (approve : ToolCallBlock → Bool)
    (exec : ToolCallBlock → ToolResult) (calls : List ToolCallBlock) :
    List Event × List ToolResultBlock × List ToolCallBlock :=
  ⟨calls.flatMap (fun b => (processCall approve exec b).1),
   calls.map (fun b => (processCall approve exec b).2.1),
   calls.filterMap (fun b => (processCall approve exec b).2.2)⟩

/-- Result of a whole turn of the loop. -/
structure LoopOutcome where
  text : String
  events : List Event
  providerCalls : Nat
  executed : List ToolCallBlock
  inputTokens : Nat
  outputTokens : Nat
deriving Repr, DecidableEq

/-- The `for (round = 0; round < MAX_TOOL_ROUNDS; round++)` body of
`streamChat`.  `fuel` is the number of rounds still permitted
(`MAX_TOOL_ROUNDS - round`), so the "last permitted round" warning fires
when `fuel = 1`.  Each round streams one `RoundResponse`, yields its text
delta and tool events, and either breaks (no tool use) or appends the
assistant blocks and tool results to the history and loops. -/
def loopAux (provider : List Msg → RoundResponse)
    (approve : ToolCallBlock → Bool) (exec : ToolCallBlock → ToolResult) :
    Nat → List Msg → LoopOutcome
  | 0, _ => ⟨"", [], 0, [], 0, 0⟩
  | fuel + 1, msgs =>
      let r := provider msgs
      let round := processRound approve exec r.calls
      let events := Event.textDelta r.text :: round.1
      if r.stopReason ≠ some "tool_use" || round.2.1.isEmpty then
        ⟨r.text, events, 1, round.2.2, r.inputTokens, r.outputTokens⟩
      else
        let msgs' := msgs ++
          [Msg.assistant r.text r.calls, Msg.toolResults round.2.1]
        let events' :=
          if fuel = 0 then events ++ [Event.warning roundsWarning]
          else events
        let rest := loopAux provider approve exec fuel msgs'
        ⟨r.text ++ rest.text, events' ++ rest.events,
         1 + rest.providerCalls, round.2.2 ++ rest.executed,
         r.inputTokens + rest.inputTokens,
         r.outputTokens + rest.outputTokens⟩

/-- The whole tool round-trip loop of `streamChat`, bounded by
`MAX_TOOL_ROUNDS`. -/
def streamChatLoop (provider : List Msg → RoundResponse)
    (approve : ToolCallBlock → Bool) (exec : ToolCallBlock → ToolResult)
    (msgs : List Msg) : LoopOutcome :=
  loopAux provider approve exec MAX_TOOL_ROUNDS msgs

/-- Number of `warning` events in a trace. -/
def warningCount (events : List Event) : Nat :=
  events.countP (fun e => match e with | .warning _ => true | _ => false)

/-- The texts of the `text_delta` events of a trace, in order. -/
def deltaTexts (events : List Event) : List String :=
  events.filterMap (fun e => match e with | .textDelta t => some t | _ => none)

/-! ## Glob matching (`src/lib/tools.ts`, `matchesPattern`;
`src/lib/context-files.ts`, `shouldIgnoreFile`)

`matchesPattern` builds a regex from the glob by the chain
`escape specials` → `replace(/\*\*/g, ".*")` → `replace(/\*/g, "[^/]*")` →
`replace(/\?/g, ".")`, anchored with `^...$` and flagged `i`.  Note that the
third step also rewrites the `*` that the second step just introduced, so
`**` compiles to `.[^/]*` — one arbitrary character followed by a run of
non-separator characters — not to `.*`.  The compiled regex is modelled as
a token list and the (backtracking-complete) matcher as a fuel-indexed
Boolean function; each step consumes at least one token or character, so
`tokens.length + input.length + 1` fuel always suffices and the `fuel = 0`
case is unreachable from the wrappers.

`shouldIgnoreFile` uses the same compilation chain but without the `i`
flag, applied to the whole relative path, plus a `startsWith` directory
check.
-/

/-- Tokens of the compiled glob regex: an escaped literal, `.` (from `?`
and from the first half of `**`), or `[^/]*` (from `*`). -/
inductive RTok where
  | lit (c : Char)
  | anyChar
  | starNonSep
deriving Repr, DecidableEq

/-- The replace-chain of `matchesPattern` / `shouldIgnoreFile` as a token
compiler: `**` ↦ `.` `[^/]*` (the `/\*\*/g → ".*"` pass immediately followed
by the `/\*/g → "[^/]*"` pass rewriting the introduced `*`), `*` ↦ `[^/]*`,
`?` ↦ `.`, anything else (after escaping) a literal. -/
def compileGlob : List Char → List RTok
  | [] => []
  | '*' :: '*' :: ps => .anyChar :: .starNonSep :: compileGlob ps
  | '*' :: ps => .starNonSep :: compileGlob ps
  | '?' :: ps => .anyChar :: compileGlob ps
  | c :: ps => .lit c :: compileGlob ps

/-- Anchored matching of a compiled token list against a character list.
`ci` selects the `i` flag (literals compared after ASCII lowering).
`fuel` bounds the recursion; every recursive call strictly decreases
`tokens.length + input.length`. -/
def rmatch (ci : Bool) : Nat → List RTok → List Char → Bool
  | _, [], s => s.isEmpty
  | 0, _ :: _, _ => false
  | fuel + 1, .lit c :: ts, s =>
      match s with
      | [] => false
      | d :: rest =>
          (if ci then asciiLowerChar c = asciiLowerChar d else c = d) &&
          rmatch ci fuel ts rest
  | fuel + 1, .anyChar :: ts, s =>
      match s with
      | [] => false
      | _ :: rest => rmatch ci fuel ts rest
  | fuel + 1, .starNonSep :: ts, s =>
      rmatch ci fuel ts s ||
      match s with
      | [] => false
      | d :: rest => d ≠ '/' && rmatch ci fuel (.starNonSep :: ts) rest

/-- Anchored matching with always-sufficient fuel. -/
def rmatchFull (ci : Bool) (ts : List RTok) (s : List Char) : Bool :=
  rmatch ci (ts.length + s.length + 1) ts s

/-- `matchesPattern(filename, pattern)` of `tools.ts`: keep only the
portion of the pattern after the last `/`, compile it, and match it,
anchored and case-insensitively, against the file name. -/
def matchesPattern (filename pattern : String) : Bool :=
  let filePattern :=
    if strContains pattern "/" then (splitOnSlash pattern).getLastD ""
    else pattern
  rmatchFull true (compileGlob filePattern.data) filename.data

/-- Modelled from the spec: the glob semantics the specification describes
for `matchesPattern` — an anchored, case-insensitive matcher in which `**`
matches any characters *across* path separators, `*` matches any characters
except a path separator, and `?` matches one character.  Used only to state
the refinement claim against the compiled matcher above. -/
def specGlobAux : Nat → List Char → List Char → Bool
  | _, [], s => s.isEmpty
  | 0, _ :: _, _ => false
  | fuel + 1, '*' :: '*' :: ps, s =>
      specGlobAux fuel ps s ||
      match s with
      | [] => false
      | _ :: rest => specGlobAux fuel ('*' :: '*' :: ps) rest
  | fuel + 1, '*' :: ps, s =>
      specGlobAux fuel ps s ||
      match s with
      | [] => false
      | d :: rest => d ≠ '/' && specGlobAux fuel ('*' :: ps) rest
  | fuel + 1, '?' :: ps, s =>
      match s with
      | [] => false
      | _ :: rest => specGlobAux fuel ps rest
  | fuel + 1, c :: ps, s =>
      match s with
      | [] => false
      | d :: rest =>
          asciiLowerChar c = asciiLowerChar d && specGlobAux fuel ps rest

/-- Modelled from the spec: anchored spec-side glob match of a whole
pattern against a whole name (fuel as for `rmatchFull`). -/
def specGlobMatch (pattern name : String) : Bool :=
  specGlobAux (pattern.data.length + name.data.length + 1)
    pattern.data name.data

/-- `shouldIgnoreFile(filePath, ignorePatterns)` of `context-files.ts`:
empty pattern list short-circuits to `false`; otherwise strip one leading
`./`, and test each pattern as an anchored case-sensitive glob or as a
directory prefix (pattern minus one trailing `/`). -/
def shouldIgnoreFile (filePath : String) (ignorePatterns : List String) :
    Bool :=
  if ignorePatterns.isEmpty then false
  else
    let normalizedPath :=
      if strStartsWith filePath "./" then ⟨filePath.data.drop 2⟩ else filePath
    ignorePatterns.any fun pattern =>
      rmatchFull false (compileGlob pattern.data) normalizedPath.data ||
      strStartsWith normalizedPath
        (if strEndsWith pattern "/" then ⟨pattern.data.dropLast⟩ else pattern)

/-! ## Recursive file search (`src/lib/tools.ts`, `searchRecursive`)

The directory tree is modelled as a finite tree of named files and
directories (`readdirSync` returns the children in list order; `statSync`
distinguishes the two constructors).  `searchRecursive` carries the `cwd`
for relative-path reporting, skips `node_modules`/`.git`/`dist` by entry
name, consults `shouldIgnoreFile` and the sandbox, recurses into
directories with `depth + 1`, and records basename matches.  The depth
guard (`depth > 5`) bounds the recursion, so a fuel of `7` is never
exhausted when starting from `depth = 0`.
-/

/-- A filesystem entry: a file or a directory with children. -/
inductive FSTree where
  | file (name : String)
  | dir (name : String) (children : List FSTree)
deriving Repr

/-- Entry name (what `readdirSync` lists). -/
def fsName : FSTree → String
  | .file n => n
  | .dir n _ => n

/-- `searchRecursive` of `tools.ts`, with the mutable `matches` array
threaded through as the `found` accumulator. -/
def searchRecAux (cwd home : String) (realpath : String → Option String)
    (ignorePatterns : List String) (pattern : String) :
    Nat → String → List FSTree → Nat → List String → List String
  | 0, _, _, _, found => found
  | fuel + 1, dirAbs, entries, depth, found =>
      -- Limit depth and results
      if depth > 5 || found.length ≥ 50 then found
      else
        entries.foldl
          (fun acc entry =>
            let name := fsName entry
            if name = "node_modules" || name = ".git" || name = "dist" then
              acc
            else
              let fullPath := dirAbs ++ "/" ++ name
              let relPath := relativePath cwd fullPath
              if shouldIgnoreFile relPath ignorePatterns then acc
              else if !(validatePath cwd home realpath fullPath).allowed then
                acc
              else
                match entry with
                | .dir _ children =>
                    searchRecAux cwd home realpath ignorePatterns pattern
                      fuel fullPath children (depth + 1) acc
                | .file _ =>
                    if matchesPattern name pattern then acc ++ [relPath]
                    else acc)
          found

/-- `searchFiles(pattern, dirPath)` of `tools.ts`, restricted to the match
list it accumulates (the surrounding function only formats this list into
the `ToolResult` output).  `tree` is the children of the search root. -/
def searchFilesMatches (cwd home : String)
    (realpath : String → Option String) (ignorePatterns : List String)
    (pattern dirPath : String) (tree : List FSTree) : List String :=
  let absPath := resolvePath cwd dirPath
  if !(validatePath cwd home realpath absPath).allowed then []
  else searchRecAux cwd home realpath ignorePatterns pattern 7 absPath tree 0 []

/-! ## Claims -/

/-- **C1.** For every path `p` outside the working directory — whether the
resolved path lacks the working-directory prefix (which subsumes textual
escapes via `..` segments, since `path.resolve` normalizes them away), or
the path exists and its symlink resolution lands outside the working
directory — `validatePath p` returns a `SandboxResult` with
`allowed = false`. -/
theorem validatePath_denies_outside (cwd home : String)
    (realpath : String → Option String) (filePath : String)
    (h : insideWorkdir cwd (resolvePath cwd filePath) = false ∨
         ∃ r, realpath (resolvePath cwd filePath) = some r ∧
           insideWorkdir cwd r = false) :
    (validatePath cwd home realpath filePath).allowed = false := by
  unfold validatePath
  simp only [insideWorkdir, Bool.or_eq_false_iff, decide_eq_false_iff_not] at h
  rcases h with ⟨hne, hpre⟩ | ⟨r, hr, hne, hpre⟩
  · rw [if_pos]
    simp [hpre, hne]
  · by_cases h1 : (strStartsWith (relativePath cwd (resolvePath cwd filePath)) ".." ||
        (!strStartsWith (resolvePath cwd filePath) (cwd ++ "/") &&
          decide (resolvePath cwd filePath ≠ cwd))) = true
    · rw [if_pos h1]
    · rw [if_neg h1, if_pos]
      rw [hr]
      simp [hpre, hne]

/-- Witness for C1: a traversal outside `/work` and a symlink that resolves
outside `/work` are both denied. -/
theorem validatePath_denies_outside_witness :
    (validatePath "/work" "" (fun _ => none) "/etc/passwd").allowed = false ∧
    (validatePath "/work" "" (fun _ => some "/secret/x")
      "/work/link").allowed = false := by
  constructor
  · exact validatePath_denies_outside "/work" "" (fun _ => none) "/etc/passwd"
      (Or.inl (by decide))
  · exact validatePath_denies_outside "/work" "" (fun _ => some "/secret/x")
      "/work/link" (Or.inr ⟨"/secret/x", rfl, by decide⟩)

/-- **C4, counterexample.** The claim "every path inside the sandbox that
matches a sensitive pattern gets `allowed = true, requiresApproval = true`"
is false as stated: `/work/token.pem` (inside the sandbox, matches the
sensitive `/token/i` pattern) is caught first by the hard-blocked
`/\.pem$/` pattern and denied outright. -/
theorem validatePath_sensitive_counterexample :
    ¬ (∀ (cwd home : String) (realpath : String → Option String)
        (filePath : String),
        insideWorkdir cwd (resolvePath cwd filePath) = true →
        (sensitivePatternTest (baseName (resolvePath cwd filePath)) ||
         sensitivePatternTest (resolvePath cwd filePath)) = true →
        (validatePath cwd home realpath filePath).allowed = true ∧
        (validatePath cwd home realpath filePath).requiresApproval = true) := by
  intro h
  have hc := h "/work" "" (fun _ => none) "/work/token.pem"
    (by decide) (by decide)
  exact absurd hc.1 (by decide)

/-- Helper: when none of the deny rules preceding the sensitive-pattern
check fires and a sensitive pattern matches, `validatePath` lands in the
`requiresApproval` branch. -/
theorem validatePath_reaches_sensitive (cwd home : String)
    (realpath : String → Option String) (filePath : String)
    (h1 : insideWorkdir cwd (resolvePath cwd filePath) = true)
    (h2 : strStartsWith (relativePath cwd (resolvePath cwd filePath)) ".."
        = false)
    (h3 : ∀ r, realpath (resolvePath cwd filePath) = some r →
        insideWorkdir cwd r = true)
    (h4 : BLOCKED_PATHS.any (fun blocked =>
        strStartsWith (resolvePath cwd filePath) (blocked ++ "/") ||
        resolvePath cwd filePath = blocked) = false)
    (h5 : (home ≠ "" && BLOCKED_HOME_DIRS.any (fun dir =>
        strStartsWith (resolvePath cwd filePath)
          (resolvePath home dir ++ "/") ||
        resolvePath cwd filePath = resolvePath home dir)) = false)
    (h6 : (blockedPatternTest (baseName (resolvePath cwd filePath)) ||
        blockedPatternTest (resolvePath cwd filePath)) = false)
    (h7 : (sensitivePatternTest (baseName (resolvePath cwd filePath)) ||
        sensitivePatternTest (resolvePath cwd filePath)) = true) :
    validatePath cwd home realpath filePath =
      ⟨true, true, some "Warning: sensitive file detected"⟩ := by
  unfold validatePath
  simp only [insideWorkdir, Bool.or_eq_true, decide_eq_true_eq] at h1
  have hcond1 : (strStartsWith (relativePath cwd (resolvePath cwd filePath))
      ".." ||
      (!strStartsWith (resolvePath cwd filePath) (cwd ++ "/") &&
        decide (resolvePath cwd filePath ≠ cwd))) = false := by
    rcases h1 with heq | hpre
    · rw [h2]
      simp [heq]
    · rw [h2]
      simp [hpre]
  have hcond2 : (match realpath (resolvePath cwd filePath) with
      | some realPath =>
          !strStartsWith realPath (cwd ++ "/") && decide (realPath ≠ cwd)
      | none => false) = false := by
    cases hrp : realpath (resolvePath cwd filePath) with
    | none => rfl
    | some r =>
        have hin := h3 r hrp
        simp only [insideWorkdir, Bool.or_eq_true, decide_eq_true_eq] at hin
        rcases hin with heq | hpre
        · simp [heq]
        · simp [hpre]
  simp only [hcond1, hcond2, h4, h5, h6, h7, Bool.false_eq_true, if_false,
    if_true]

/-- **C4, amended.** For every path inside the sandbox that matches a
sensitive pattern, `validatePath` returns `allowed = true` together with
`requiresApproval = true`, *provided no earlier rule denies the path
first*: the relative path does not textually start with `..`, symlink
resolution (if the path exists) stays inside the sandbox, and the path is
not under a blocked system directory, not under a blocked home directory,
and does not match a hard-blocked filename pattern. -/
theorem validatePath_sensitive_requires_approval (cwd home : String)
    (realpath : String → Option String) (filePath : String)
    (h1 : insideWorkdir cwd (resolvePath cwd filePath) = true)
    (h2 : strStartsWith (relativePath cwd (resolvePath cwd filePath)) ".."
        = false)
    (h3 : ∀ r, realpath (resolvePath cwd filePath) = some r →
        insideWorkdir cwd r = true)
    (h4 : BLOCKED_PATHS.any (fun blocked =>
        strStartsWith (resolvePath cwd filePath) (blocked ++ "/") ||
        resolvePath cwd filePath = blocked) = false)
    (h5 : (home ≠ "" && BLOCKED_HOME_DIRS.any (fun dir =>
        strStartsWith (resolvePath cwd filePath)
          (resolvePath home dir ++ "/") ||
        resolvePath cwd filePath = resolvePath home dir)) = false)
    (h6 : (blockedPatternTest (baseName (resolvePath cwd filePath)) ||
        blockedPatternTest (resolvePath cwd filePath)) = false)
    (h7 : (sensitivePatternTest (baseName (resolvePath cwd filePath)) ||
        sensitivePatternTest (resolvePath cwd filePath)) = true) :
    (validatePath cwd home realpath filePath).allowed = true ∧
    (validatePath cwd home realpath filePath).requiresApproval = true := by
  rw [validatePath_reaches_sensitive cwd home realpath filePath
    h1 h2 h3 h4 h5 h6 h7]
  exact ⟨rfl, rfl⟩

/-- Witness for C4 (amended): `/work/.env` is sensitive, inside the
sandbox, hits no earlier deny rule, and gets
`allowed = true, requiresApproval = true`. -/
theorem validatePath_sensitive_requires_approval_witness :
    (validatePath "/work" "" (fun _ => none) "/work/.env").allowed = true ∧
    (validatePath "/work" "" (fun _ => none)
      "/work/.env").requiresApproval = true :=
  validatePath_sensitive_requires_approval "/work" "" (fun _ => none)
    "/work/.env" (by decide) (by decide) (fun r hr => nomatch hr)
    (by decide) (by decide) (by decide) (by decide)

/-- If the lowered string contains `token`, `password` or `credentials`,
the `SENSITIVE_PATTERNS` disjunction matches it. -/
theorem sensitive_of_contains (s : String)
    (h : strContains (asciiLower s) "token" = true ∨
         strContains (asciiLower s) "password" = true ∨
         strContains (asciiLower s) "credentials" = true) :
    sensitivePatternTest s = true := by
  unfold sensitivePatternTest
  rcases h with h | h | h <;> simp [h]

/-- **C10.** Sensitive-pattern matching in `validatePath` is applied to the
full absolute path as well as the basename: every path inside the sandbox
whose absolute path contains the substring `token`, `password`, or
`credentials` (case-insensitively) anywhere — including an ordinary file
inside a directory with such a name — is returned with
`requiresApproval = true` (and `allowed = true`), unless an earlier rule
(textual `..` escape, symlink escape, blocked system or home directory,
hard-blocked filename pattern) denies it outright. -/
theorem validatePath_sensitive_full_path (cwd home : String)
    (realpath : String → Option String) (filePath : String)
    (h1 : insideWorkdir cwd (resolvePath cwd filePath) = true)
    (h2 : strStartsWith (relativePath cwd (resolvePath cwd filePath)) ".."
        = false)
    (h3 : ∀ r, realpath (resolvePath cwd filePath) = some r →
        insideWorkdir cwd r = true)
    (h4 : BLOCKED_PATHS.any (fun blocked =>
        strStartsWith (resolvePath cwd filePath) (blocked ++ "/") ||
        resolvePath cwd filePath = blocked) = false)
    (h5 : (home ≠ "" && BLOCKED_HOME_DIRS.any (fun dir =>
        strStartsWith (resolvePath cwd filePath)
          (resolvePath home dir ++ "/") ||
        resolvePath cwd filePath = resolvePath home dir)) = false)
    (h6 : (blockedPatternTest (baseName (resolvePath cwd filePath)) ||
        blockedPatternTest (resolvePath cwd filePath)) = false)
    (h7 : strContains (asciiLower (resolvePath cwd filePath)) "token" = true ∨
          strContains (asciiLower (resolvePath cwd filePath)) "password"
            = true ∨
          strContains (asciiLower (resolvePath cwd filePath)) "credentials"
            = true) :
    (validatePath cwd home realpath filePath).requiresApproval = true ∧
    (validatePath cwd home realpath filePath).allowed = true := by
  have h7' : (sensitivePatternTest (baseName (resolvePath cwd filePath)) ||
      sensitivePatternTest (resolvePath cwd filePath)) = true := by
    rw [sensitive_of_contains _ h7]
    simp
  rw [validatePath_reaches_sensitive cwd home realpath filePath
    h1 h2 h3 h4 h5 h6 h7']
  exact ⟨rfl, rfl⟩

/-- Witness for C10: `readme.md`, an ordinary file inside `/work/tokens/`,
requires approval because the *directory* name contains `token`. -/
theorem validatePath_sensitive_full_path_witness :
    (validatePath "/work" "" (fun _ => none)
      "/work/tokens/readme.md").requiresApproval = true ∧
    (validatePath "/work" "" (fun _ => none)
      "/work/tokens/readme.md").allowed = true :=
  validatePath_sensitive_full_path "/work" "" (fun _ => none)
    "/work/tokens/readme.md" (by decide) (by decide)
    (fun r hr => nomatch hr) (by decide) (by decide) (by decide)
    (Or.inl (by decide))

/-- **C5.** For every `read_file` call on a path the sandbox flags as
requiring approval: with `skipApprovalCheck = false` the executor returns
immediately with `requiresApproval = true` and `isError = false` and
performs no disk read; the file content is only read on a subsequent call
with `skipApprovalCheck = true` (which, when the size check passes and the
read succeeds, touches exactly the resolved path and returns its content
prefixed with the relative path). -/
theorem readFile_approval_gate (cwd home : String)
    (realpath : String → Option String) (fsSize : String → Option Nat)
    (fsRead : String → Option String) (filePath : String)
    (h1 : (validatePath cwd home realpath
        (resolvePath cwd filePath)).allowed = true)
    (h2 : (validatePath cwd home realpath
        (resolvePath cwd filePath)).requiresApproval = true) :
    ((readFileModel cwd home realpath fsSize fsRead filePath
        false).result.requiresApproval = true ∧
     (readFileModel cwd home realpath fsSize fsRead filePath
        false).result.isError = false ∧
     (readFileModel cwd home realpath fsSize fsRead filePath
        false).reads = []) ∧
    (∀ content,
      (validateFileSize fsSize cwd (resolvePath cwd filePath)).allowed
        = true →
      fsRead (resolvePath cwd filePath) = some content →
      (readFileModel cwd home realpath fsSize fsRead filePath true).reads
        = [resolvePath cwd filePath] ∧
      (readFileModel cwd home realpath fsSize fsRead filePath true).result
        = ⟨"File: " ++ relativePath cwd (resolvePath cwd filePath) ++
            "\n\n" ++ content, false, false⟩) := by
  constructor
  · unfold readFileModel
    simp [h1, h2]
  · intro content hsize hread
    unfold readFileModel
    simp [h1, h2, hsize, hread]

/-- Witness for C5: reading `/work/.env` (sensitive) without prior approval
returns `requiresApproval = true`, `isError = false`, and performs no disk
read; re-invoking with `skipApprovalCheck = true` reads the file. -/
theorem readFile_approval_gate_witness :
    ((readFileModel "/work" "" (fun _ => none) (fun _ => some 10)
        (fun _ => some "SECRET") "/work/.env"
        false).result.requiresApproval = true ∧
     (readFileModel "/work" "" (fun _ => none) (fun _ => some 10)
        (fun _ => some "SECRET") "/work/.env"
        false).result.isError = false ∧
     (readFileModel "/work" "" (fun _ => none) (fun _ => some 10)
        (fun _ => some "SECRET") "/work/.env" false).reads = []) ∧
    ((readFileModel "/work" "" (fun _ => none) (fun _ => some 10)
        (fun _ => some "SECRET") "/work/.env" true).reads
        = [resolvePath "/work" "/work/.env"] ∧
     (readFileModel "/work" "" (fun _ => none) (fun _ => some 10)
        (fun _ => some "SECRET") "/work/.env" true).result
        = ⟨"File: " ++ relativePath "/work"
            (resolvePath "/work" "/work/.env") ++ "\n\n" ++ "SECRET",
           false, false⟩) := by
  have h := readFile_approval_gate "/work" "" (fun _ => none)
    (fun _ => some 10) (fun _ => some "SECRET") "/work/.env"
    (by decide) (by decide)
  exact ⟨h.1, h.2 "SECRET" (by decide) rfl⟩

/-- Concrete WHATWG-parse stub for the C6 counterexample: one public
hostname URL. -/
def evilParse : String → Option ParsedUrl := fun url =>
  if url = "http://internal.evil.example/secret" then
    some ⟨"http:", "internal.evil.example"⟩
  else none

/-- Concrete DNS resolver for the C6 counterexample: the public hostname
resolves to loopback. -/
def evilDns : String → String := fun h =>
  if h = "internal.evil.example" then "127.0.0.1" else "93.184.216.34"

/-- **C6, counterexample.** The claim "every URL whose hostname *resolves*
to a loopback/private/link-local address is rejected before any network
request" is false as stated: `webFetch` never consults DNS — it only
pattern-matches the hostname text — so `http://internal.evil.example/secret`,
whose hostname resolves to the loopback address `127.0.0.1`, reaches the
`proceed` point (the `curl` invocation). -/
theorem webFetchGate_dns_counterexample :
    ¬ (∀ (parse : String → Option ParsedUrl) (dns : String → String)
        (url : String) (u : ParsedUrl),
        parse url = some u →
        (u.protocol = "http:" ∨ u.protocol = "https:") →
        isPrivateAddress (dns u.hostname) = true →
        ∃ msg, webFetchGate parse url = FetchGate.blocked msg) := by
  intro h
  obtain ⟨msg, hmsg⟩ := h evilParse evilDns
    "http://internal.evil.example/secret" ⟨"http:", "internal.evil.example"⟩
    rfl (Or.inl rfl) (by decide)
  have : webFetchGate evilParse "http://internal.evil.example/secret" =
      FetchGate.proceed "internal.evil.example" := by decide
  rw [this] at hmsg
  exact absurd hmsg (by simp)

/-- **C6, amended.** `webFetch` rejects, before any network request: every
URL whose scheme is not `http`/`https`, and every URL whose hostname
*textually* matches one of the loopback/private/link-local patterns (e.g.
`http://127.0.0.1/secret`).  A hostname that merely resolves to such an
address without textually matching a pattern is *not* blocked. -/
theorem webFetchGate_scheme_and_private (parse : String → Option ParsedUrl)
    (url : String) (u : ParsedUrl) (hp : parse url = some u) :
    (¬ (u.protocol = "http:" ∨ u.protocol = "https:") →
      webFetchGate parse url =
        FetchGate.blocked "Only HTTP/HTTPS URLs are supported") ∧
    ((u.protocol = "http:" ∨ u.protocol = "https:") →
      privateHostPattern (asciiLower u.hostname) = true →
      webFetchGate parse url = FetchGate.blocked
        "Access to private networks and localhost is not allowed") := by
  constructor
  · intro hscheme
    unfold webFetchGate
    rw [hp]
    have : (u.protocol = "http:" || u.protocol = "https:") = false := by
      rcases Decidable.em (u.protocol = "http:") with h1 | h1
      · exact absurd (Or.inl h1) hscheme
      · rcases Decidable.em (u.protocol = "https:") with h2 | h2
        · exact absurd (Or.inr h2) hscheme
        · simp [h1, h2]
    simp [this]
  · intro hscheme hpriv
    unfold webFetchGate
    rw [hp]
    have hok : (u.protocol = "http:" || u.protocol = "https:") = true := by
      rcases hscheme with h1 | h1 <;> simp [h1]
    simp [hok, hpriv]

/-- Witness for C6 (amended): the spec scenario —
`web_fetch("http://127.0.0.1/secret")` is denied before any network call —
and an `ftp:` URL is rejected by the scheme check. -/
theorem webFetchGate_scheme_and_private_witness :
    webFetchGate (fun _ => some ⟨"http:", "127.0.0.1"⟩)
      "http://127.0.0.1/secret" = FetchGate.blocked
        "Access to private networks and localhost is not allowed" ∧
    webFetchGate (fun _ => some ⟨"ftp:", "files.example"⟩)
      "ftp://files.example/x" = FetchGate.blocked
        "Only HTTP/HTTPS URLs are supported" := by
  constructor
  · exact (webFetchGate_scheme_and_private
      (fun _ => some ⟨"http:", "127.0.0.1"⟩) "http://127.0.0.1/secret"
      ⟨"http:", "127.0.0.1"⟩ rfl).2 (Or.inl rfl) (by decide)
  · exact (webFetchGate_scheme_and_private
      (fun _ => some ⟨"ftp:", "files.example"⟩) "ftp://files.example/x"
      ⟨"ftp:", "files.example"⟩ rfl).1 (by simp)

/-- **C8, counterexample.** The claim "an unknown model id yields a warning
and a `totalCost` of 0 from a neutral zero-cost entry" is false as stated:
the `claude.ts` loop does warn, but prices the turn with the *default
model's (haiku)* entry — `1_000_000` input tokens cost `0.8`, not `0` —
while the Groq adapter does return `0` but yields *no* warning. -/
theorem costTail_counterexample :
    ¬ (∀ (model : String) (inputTokens outputTokens : Nat),
        (pricingLookup model = none →
          (claudeCostTail model inputTokens outputTokens).warned = true ∧
          (claudeCostTail model inputTokens outputTokens).totalCost = 0) ∧
        (getModelConfig model = none →
          (groqCostTail model inputTokens outputTokens).warned = true ∧
          (groqCostTail model inputTokens outputTokens).totalCost = 0)) := by
  intro h
  have hc := (h "unknown-model" 1000000 0).1 rfl
  have hval : (claudeCostTail "unknown-model" 1000000 0).totalCost = 4/5 := by
    have hlook : pricingLookup "unknown-model" = none := rfl
    have hdef : pricingLookup DEFAULT_MODEL = some ⟨4/5, 4⟩ := rfl
    unfold claudeCostTail
    rw [hlook, hdef]
    norm_num
  rw [hval] at hc
  exact absurd hc.2 (by norm_num)

/-- **C8, amended.** For a model id with no pricing entry: the `claude.ts`
loop emits the "Unknown pricing" warning and computes `totalCost` with the
default model's (haiku) per-million prices, `inTok·0.8/1e6 + outTok·4/1e6`;
the Groq adapter computes `totalCost = 0` from its zero-cost fallback but
emits no warning. -/
theorem costTail_unknown_model (model : String)
    (inputTokens outputTokens : Nat) :
    (pricingLookup model = none →
      (claudeCostTail model inputTokens outputTokens).warned = true ∧
      (claudeCostTail model inputTokens outputTokens).totalCost =
        (inputTokens : Rat) / 1000000 * (4/5) +
        (outputTokens : Rat) / 1000000 * 4) ∧
    (getModelConfig model = none →
      (groqCostTail model inputTokens outputTokens).warned = false ∧
      (groqCostTail model inputTokens outputTokens).totalCost = 0) := by
  constructor
  · intro hnone
    unfold claudeCostTail
    rw [hnone]
    refine ⟨rfl, ?_⟩
    have hdef : pricingLookup DEFAULT_MODEL = some ⟨4/5, 4⟩ := rfl
    rw [hdef]
    rfl
  · intro hnone
    unfold groqCostTail
    rw [hnone]
    refine ⟨rfl, ?_⟩
    show (inputTokens : Rat) / 1000000 * (0 : Rat) +
      (outputTokens : Rat) / 1000000 * (0 : Rat) = 0
    ring

/-- Witness for C8 (amended): the unknown id `mystery-model` with 2M input
and 500k output tokens costs `2·0.8 + 0.5·4 = 18/5` under the `claude.ts`
fallback (with a warning) and `0` under the Groq fallback (no warning). -/
theorem costTail_unknown_model_witness :
    (claudeCostTail "mystery-model" 2000000 500000).warned = true ∧
    (claudeCostTail "mystery-model" 2000000 500000).totalCost = 18/5 ∧
    (groqCostTail "mystery-model" 2000000 500000).warned = false ∧
    (groqCostTail "mystery-model" 2000000 500000).totalCost = 0 := by
  have h := costTail_unknown_model "mystery-model" 2000000 500000
  have h1 := h.1 rfl
  have h2 := h.2 rfl
  refine ⟨h1.1, ?_, h2.1, h2.2⟩
  rw [h1.2]
  norm_num

/-- **C3.** For every `write_file` tool call whose approval request is
denied, the loop records a tool result with `isError = true` and the fixed
content `"User denied this file write."`, and the tool executor is never
invoked (the `executed` component is `none`), so no filesystem mutation
occurs for that call.  (`processCall` is exactly the per-block body of the
round loop in `claude.ts`, so the recorded `ToolResultBlock` is what the
loop appends to `toolResults`.) -/
theorem processCall_write_file_denied (approve : ToolCallBlock → Bool)
    (exec : ToolCallBlock → ToolResult) (block : ToolCallBlock)
    (hname : block.name = "write_file") (hdeny : approve block = false) :
    processCall approve exec block =
      ⟨[Event.toolApprove block.name block.input,
        Event.toolDone block.name block.input "Denied by user" true],
       ⟨block.id, "User denied this file write.", true⟩, none⟩ := by
  unfold processCall
  simp [hname, hdeny]

/-- Witness for C3: a concrete denied `write_file` call records the fixed
denial result and executes nothing. -/
theorem processCall_write_file_denied_witness :
    processCall (fun _ => false) (fun _ => ⟨"written", false, false⟩)
      ⟨"toolu_1", "write_file", "args"⟩ =
      ⟨[Event.toolApprove "write_file" "args",
        Event.toolDone "write_file" "args" "Denied by user" true],
       ⟨"toolu_1", "User denied this file write.", true⟩, none⟩ :=
  processCall_write_file_denied (fun _ => false)
    (fun _ => ⟨"written", false, false⟩)
    ⟨"toolu_1", "write_file", "args"⟩ rfl rfl

/-- Helper: the backoff waits recorded by the attempt loop started at
`attempt` are exactly `min(initialDelay * multiplier ^ (attempt + k), maxDelay)`
for `k = 0, 1, ...`. -/
theorem retryAux_delays_closed_form {T : Type} (op : Nat → Except JsError T)
    (maxR initD maxD mult : Nat) :
    ∀ (fuel attempt : Nat), ∃ n,
      (retryAux op maxR initD maxD mult fuel attempt).delays =
        (List.range n).map
          (fun k => min (initD * mult ^ (attempt + k)) maxD) := by
  intro fuel
  induction fuel with
  | zero => intro attempt; exact ⟨0, rfl⟩
  | succ fuel ih =>
      intro attempt
      unfold retryAux
      cases hop : op attempt with
      | ok v => exact ⟨0, rfl⟩
      | error e =>
          cases hr : isRetryableError e with
          | false => exact ⟨0, by simp [hr]⟩
          | true =>
              by_cases hlast : attempt = maxR
              · exact ⟨0, by simp [hr, hlast]⟩
              · obtain ⟨n, hn⟩ := ih (attempt + 1)
                refine ⟨n + 1, ?_⟩
                simp only [hr, Bool.not_true, Bool.false_eq_true, if_false,
                  if_neg hlast]
                rw [List.range_succ_eq_map]
                simp only [List.map_cons, List.map_map]
                rw [hn]
                have htail :
                    (List.range n).map
                      (fun k => min (initD * mult ^ (attempt + 1 + k)) maxD) =
                    (List.range n).map
                      ((fun k => min (initD * mult ^ (attempt + k)) maxD) ∘
                        Nat.succ) := by
                  apply List.map_congr_left
                  intro k hk
                  have hadd : attempt + 1 + k = attempt + (k + 1) := by omega
                  simp [Function.comp, hadd]
                rw [htail]
                simp

/-- Helper: when every attempt fails, the loop's settled error is literally
one of the operation's own errors (never wrapped). -/
theorem retryAux_error_from_op {T : Type} (op : Nat → Except JsError T)
    (maxR initD maxD mult : Nat) :
    ∀ (fuel attempt : Nat), attempt ≤ maxR → attempt + fuel = maxR + 1 →
      (∀ i, ∃ e, op i = .error e) →
      ∃ j e, attempt ≤ j ∧ j ≤ maxR ∧ op j = .error e ∧
        (retryAux op maxR initD maxD mult fuel attempt).result = .error e := by
  intro fuel
  induction fuel with
  | zero => intro attempt hle hsum hall; omega
  | succ fuel ih =>
      intro attempt hle hsum hall
      obtain ⟨e, he⟩ := hall attempt
      unfold retryAux
      rw [he]
      cases hr : isRetryableError e with
      | false =>
          exact ⟨attempt, e, Nat.le_refl _, hle, he, by simp [hr]⟩
      | true =>
          by_cases hlast : attempt = maxR
          · exact ⟨attempt, e, Nat.le_refl _, hle, he, by simp [hr, hlast]⟩
          · obtain ⟨j, e', hj1, hj2, hop, hres⟩ :=
              ih (attempt + 1) (by omega) (by omega) hall
            refine ⟨j, e', by omega, hj2, hop, ?_⟩
            simp only [hr, Bool.not_true, Bool.false_eq_true, if_false,
              if_neg hlast]
            exact hres

/-- Helper: if every attempt before `k` (from `attempt` on) fails with a
retryable error and attempt `k` fails with a non-retryable one, the loop
settles with attempt `k`'s error immediately — no further retry, and
exactly one backoff wait per earlier attempt. -/
theorem retryAux_nonretryable_settles {T : Type} (op : Nat → Except JsError T)
    (maxR initD maxD mult : Nat) :
    ∀ (fuel attempt k : Nat) (e : JsError),
      attempt + fuel = maxR + 1 → attempt ≤ k → k ≤ maxR →
      (∀ i, attempt ≤ i → i < k → ∃ e', op i = .error e' ∧
        isRetryableError e' = true) →
      op k = .error e → isRetryableError e = false →
      (retryAux op maxR initD maxD mult fuel attempt).result = .error e ∧
      (retryAux op maxR initD maxD mult fuel attempt).delays =
        (List.range' attempt (k - attempt)).map
          (fun i => min (initD * mult ^ i) maxD) := by
  intro fuel
  induction fuel with
  | zero => intro attempt k e hsum hak hkmax _ _ _; omega
  | succ fuel ih =>
      intro attempt k e hsum hak hkmax hpre hk hnr
      by_cases heq : attempt = k
      · subst heq
        unfold retryAux
        rw [hk]
        simp [hnr, Nat.sub_self]
      · have hlt : attempt < k := Nat.lt_of_le_of_ne hak heq
        obtain ⟨e', he', hre'⟩ := hpre attempt (Nat.le_refl _) hlt
        have hne : attempt ≠ maxR := by omega
        unfold retryAux
        rw [he']
        simp only [hre', Bool.not_true, Bool.false_eq_true, if_false,
          if_neg hne]
        have recres := ih (attempt + 1) k e (by omega) (by omega) hkmax
          (fun i h1 h2 => hpre i (by omega) h2) hk hnr
        refine ⟨recres.1, ?_⟩
        have hrange : List.range' attempt (k - attempt) =
            attempt :: List.range' (attempt + 1) (k - (attempt + 1)) := by
          have hs : k - attempt = (k - (attempt + 1)) + 1 := by omega
          rw [hs, List.range'_succ]
        rw [hrange, List.map_cons, recres.2]

/-- **C7.** `retryWithBackoff` (a) waits
`min(initialDelay * backoffMultiplier ^ i, maxDelay)` before the
`(i+1)`-th retry, (b) never retries an error that is not classified
retryable: whenever the first `k` attempts fail with retryable errors and
attempt `k` fails with a non-retryable error, the call settles with that
error immediately, having waited exactly once per earlier attempt and
never after the non-retryable failure, (b') in particular a 429 rate-limit
error (whose message carries no network-error code) is not classified
retryable, and (c) when all attempts fail it settles with an error thrown
by the operation itself, never a wrapped one. -/
theorem retryWithBackoff_contract {T : Type} (op : Nat → Except JsError T)
    (maxRetries initialDelay maxDelay backoffMultiplier : Nat) :
    (∃ n, (retryWithBackoff op maxRetries initialDelay maxDelay
        backoffMultiplier).delays =
      (List.range n).map
        (fun i => min (initialDelay * backoffMultiplier ^ i) maxDelay)) ∧
    (∀ (k : Nat) (e : JsError), k ≤ maxRetries →
      (∀ i, i < k → ∃ e', op i = .error e' ∧
        isRetryableError e' = true) →
      op k = .error e → isRetryableError e = false →
      (retryWithBackoff op maxRetries initialDelay maxDelay
        backoffMultiplier).result = .error e ∧
      (retryWithBackoff op maxRetries initialDelay maxDelay
        backoffMultiplier).delays =
        (List.range k).map
          (fun i => min (initialDelay * backoffMultiplier ^ i) maxDelay)) ∧
    (∀ e : JsError, e.status = some 429 →
      (∀ c ∈ NETWORK_ERROR_CODES, strContains e.message c = false) →
      isRetryableError e = false) ∧
    ((∀ i, ∃ e, op i = .error e) →
      ∃ j e, j ≤ maxRetries ∧ op j = .error e ∧
        (retryWithBackoff op maxRetries initialDelay maxDelay
          backoffMultiplier).result = .error e) := by
  refine ⟨?_, ?_, ?_, ?_⟩
  · obtain ⟨n, hn⟩ := retryAux_delays_closed_form op maxRetries initialDelay
      maxDelay backoffMultiplier (maxRetries + 1) 0
    exact ⟨n, by simpa using hn⟩
  · intro k e hkmax hpre hk hnr
    have h := retryAux_nonretryable_settles op maxRetries initialDelay
      maxDelay backoffMultiplier (maxRetries + 1) 0 k e (by omega)
      (Nat.zero_le _) hkmax (fun i _ h2 => hpre i h2) hk hnr
    refine ⟨h.1, ?_⟩
    unfold retryWithBackoff
    rw [h.2, List.range_eq_range', Nat.sub_zero]
  · intro e hstatus hmsg
    unfold isRetryableError
    have hany : NETWORK_ERROR_CODES.any
        (fun c => strContains e.message c) = false := by
      rw [List.any_eq_false]
      intro c hc
      simp [hmsg c hc]
    rw [hstatus, hany]
    simp
  · intro hall
    obtain ⟨j, e, _, hj2, hop, hres⟩ :=
      retryAux_error_from_op op maxRetries initialDelay maxDelay
        backoffMultiplier (maxRetries + 1) 0 (Nat.zero_le _) (by omega) hall
    exact ⟨j, e, hj2, hop, hres⟩

/-- A 502 server error, as seen by `isRetryableError` (retryable). -/
def err502 : JsError := ⟨true, false, "Internal server error", some 502, none⟩

/-- A 429 rate-limit error, as seen by `isRetryableError`. -/
def err429 : JsError := ⟨true, false, "Rate limit exceeded", some 429, none⟩

/-- Operation stub that fails every attempt with a 502. -/
def op502 : Nat → Except JsError Nat := fun _ => .error err502

/-- Operation stub that fails every attempt with a 429. -/
def op429 : Nat → Except JsError Nat := fun _ => .error err429

/-- Operation stub: retryable 502s on attempts 0 and 1, then a 429. -/
def opMixed : Nat → Except JsError Nat := fun i =>
  if i < 2 then .error err502 else .error err429

/-- Witness for C7: with an always-502 operation the waits follow the
backoff formula and the settled error is the operation's own; an always-429
operation is thrown to the caller immediately with no waits; and an
operation that 502s twice and then 429s settles with the 429 right after
the two 502 backoff waits — the mid-run 429 is not retried. -/
theorem retryWithBackoff_contract_witness :
    (∃ n, (retryWithBackoff op502 2 1000 30000 2).delays =
      (List.range n).map (fun i => min (1000 * 2 ^ i) 30000)) ∧
    isRetryableError err429 = false ∧
    (retryWithBackoff op429 3 1000 30000 2).result = .error err429 ∧
    (retryWithBackoff op429 3 1000 30000 2).delays = [] ∧
    (retryWithBackoff opMixed 3 1000 30000 2).result = .error err429 ∧
    (retryWithBackoff opMixed 3 1000 30000 2).delays = [1000, 2000] ∧
    (∃ j e, j ≤ 2 ∧ op502 j = .error e ∧
      (retryWithBackoff op502 2 1000 30000 2).result = .error e) := by
  have h502 := retryWithBackoff_contract op502 2 1000 30000 2
  have h429 := retryWithBackoff_contract op429 3 1000 30000 2
  have hmix := retryWithBackoff_contract opMixed 3 1000 30000 2
  have hnr : isRetryableError err429 = false :=
    h429.2.2.1 err429 rfl (by decide)
  have himm := h429.2.1 0 err429 (by omega)
    (fun i hi => absurd hi (Nat.not_lt_zero i)) rfl hnr
  have hmid := hmix.2.1 2 err429 (by omega)
    (fun i hi => ⟨err502, by simp [opMixed, hi], by decide⟩) rfl hnr
  refine ⟨h502.1, hnr, himm.1, ?_, hmid.1, ?_,
    h502.2.2.2 (fun i => ⟨err502, rfl⟩)⟩
  · rw [himm.2]
    rfl
  · rw [hmid.2]
    decide

/-- Concatenation of a list of strings (the accumulated text of a turn). -/
def concatAll : List String → String
  | [] => ""
  | s :: rest => s ++ concatAll rest

/-- `warningCount` distributes over appending traces. -/
theorem warningCount_append (l1 l2 : List Event) :
    warningCount (l1 ++ l2) = warningCount l1 + warningCount l2 :=
  List.countP_append _ _ _

/-- `deltaTexts` distributes over appending traces. -/
theorem deltaTexts_append (l1 l2 : List Event) :
    deltaTexts (l1 ++ l2) = deltaTexts l1 ++ deltaTexts l2 :=
  List.filterMap_append _ _ _

/-- Tool-call processing yields neither `warning` nor `text_delta`
events. -/
theorem processCall_no_delta_no_warning (approve : ToolCallBlock → Bool)
    (exec : ToolCallBlock → ToolResult) (block : ToolCallBlock) :
    warningCount (processCall approve exec block).1 = 0 ∧
    deltaTexts (processCall approve exec block).1 = [] := by
  unfold processCall
  by_cases h : block.name = "write_file"
  · cases ha : approve block
    · simp [h, ha, warningCount, deltaTexts]
    · simp [h, ha, warningCount, deltaTexts]
  · simp [h, warningCount, deltaTexts]

/-- One round of tool processing yields neither `warning` nor `text_delta`
events, and produces exactly one tool result per tool call. -/
theorem processRound_aggregate (approve : ToolCallBlock → Bool)
    (exec : ToolCallBlock → ToolResult) (calls : List ToolCallBlock) :
    warningCount (processRound approve exec calls).1 = 0 ∧
    deltaTexts (processRound approve exec calls).1 = [] ∧
    (processRound approve exec calls).2.1.length = calls.length := by
  refine ⟨?_, ?_, by simp [processRound]⟩
  · unfold processRound
    induction calls with
    | nil => simp [warningCount]
    | cons b bs ih =>
        have hb := processCall_no_delta_no_warning approve exec b
        simp only [List.flatMap_cons, warningCount_append, hb.1, ih]
  · unfold processRound
    induction calls with
    | nil => simp [deltaTexts]
    | cons b bs ih =>
        have hb := processCall_no_delta_no_warning approve exec b
        simp only [List.flatMap_cons, deltaTexts_append, hb.2, ih,
          List.nil_append]

/-- A `text_delta` at the head of a trace contributes its text. -/
theorem deltaTexts_cons_textDelta (t : String) (l : List Event) :
    deltaTexts (Event.textDelta t :: l) = t :: deltaTexts l := by
  unfold deltaTexts
  rw [List.filterMap_cons]

/-- A `text_delta` at the head of a trace is not a warning. -/
theorem warningCount_cons_textDelta (t : String) (l : List Event) :
    warningCount (Event.textDelta t :: l) = warningCount l := by
  unfold warningCount
  rw [List.countP_cons]
  simp

/-- The loop performs at most `fuel` provider rounds, whatever the
provider, approvals and tools do. -/
theorem loopAux_providerCalls_le (provider : List Msg → RoundResponse)
    (approve : ToolCallBlock → Bool) (exec : ToolCallBlock → ToolResult) :
    ∀ (fuel : Nat) (msgs : List Msg),
      (loopAux provider approve exec fuel msgs).providerCalls ≤ fuel := by
  intro fuel
  induction fuel with
  | zero => intro msgs; exact Nat.le_refl 0
  | succ fuel ih =>
      intro msgs
      simp only [loopAux]
      by_cases hc : (decide ((provider msgs).stopReason ≠ some "tool_use") ||
          (processRound approve exec
            (provider msgs).calls).2.1.isEmpty) = true
      · rw [if_pos hc]
        exact Nat.le_add_left 1 fuel
      · rw [if_neg hc]
        by_cases hf : fuel = 0
        · subst hf
          simpa using ih _
        · rw [if_neg hf]
          simpa [Nat.add_comm] using Nat.add_le_add_left (ih _) 1

/-- A lone warning event counts once and carries no text. -/
theorem warningCount_singleton_warning (m : String) :
    warningCount [Event.warning m] = 1 := by
  simp [warningCount]

/-- A lone warning event contributes no `text_delta`. -/
theorem deltaTexts_singleton_warning (m : String) :
    deltaTexts [Event.warning m] = [] := rfl

/-- Under a provider that requests another tool call on every round, the
loop runs for exactly `fuel` rounds, emits the round-ceiling warning
exactly once (for `fuel ≥ 1`), and its final text is the concatenation of
the `text_delta` events it yielded. -/
theorem loopAux_always_tool (provider : List Msg → RoundResponse)
    (approve : ToolCallBlock → Bool) (exec : ToolCallBlock → ToolResult)
    (H : ∀ ms, (provider ms).stopReason = some "tool_use" ∧
        (provider ms).calls ≠ []) :
    ∀ (fuel : Nat) (msgs : List Msg),
      (loopAux provider approve exec fuel msgs).providerCalls = fuel ∧
      warningCount (loopAux provider approve exec fuel msgs).events =
        (if fuel = 0 then 0 else 1) ∧
      (loopAux provider approve exec fuel msgs).text =
        concatAll (deltaTexts
          (loopAux provider approve exec fuel msgs).events) := by
  intro fuel
  induction fuel with
  | zero =>
      intro msgs
      exact ⟨rfl, by simp [loopAux, warningCount], by
        simp [loopAux, deltaTexts, concatAll]⟩
  | succ fuel ih =>
      intro msgs
      obtain ⟨hstop, hcalls⟩ := H msgs
      have hround := processRound_aggregate approve exec (provider msgs).calls
      have hres : (processRound approve exec
          (provider msgs).calls).2.1.isEmpty = false := by
        cases hr : (processRound approve exec (provider msgs).calls).2.1 with
        | nil =>
            exfalso
            have hlen := hround.2.2
            rw [hr] at hlen
            exact hcalls (List.length_eq_zero.mp hlen.symm)
        | cons a as => rfl
      have hcondF : (decide ((provider msgs).stopReason ≠ some "tool_use") ||
          (processRound approve exec
            (provider msgs).calls).2.1.isEmpty) = false := by
        rw [hstop, hres]
        simp
      have ihrec := ih (msgs ++ [Msg.assistant (provider msgs).text
        (provider msgs).calls,
        Msg.toolResults (processRound approve exec
          (provider msgs).calls).2.1])
      simp only [loopAux]
      rw [if_neg (by rw [hcondF]; exact Bool.false_ne_true)]
      refine ⟨?_, ?_, ?_⟩
      · dsimp only
        rw [ihrec.1]
        omega
      · dsimp only
        rw [warningCount_append, ihrec.2.1]
        cases fuel with
        | zero =>
            rw [if_pos rfl, if_pos rfl, warningCount_append,
              warningCount_cons_textDelta, hround.1,
              warningCount_singleton_warning]
            simp
        | succ fuel' =>
            rw [if_neg (Nat.succ_ne_zero fuel'),
              if_neg (Nat.succ_ne_zero fuel'),
              warningCount_cons_textDelta, hround.1]
            simp [Nat.succ_ne_zero]
      · dsimp only
        rw [deltaTexts_append]
        have hdel : deltaTexts (if fuel = 0 then
            (Event.textDelta (provider msgs).text ::
              (processRound approve exec (provider msgs).calls).1) ++
              [Event.warning roundsWarning]
          else Event.textDelta (provider msgs).text ::
              (processRound approve exec (provider msgs).calls).1) =
            [(provider msgs).text] := by
          cases fuel with
          | zero =>
              rw [if_pos rfl, deltaTexts_append, deltaTexts_cons_textDelta,
                hround.2.1, deltaTexts_singleton_warning]
              simp
          | succ fuel' =>
              rw [if_neg (Nat.succ_ne_zero fuel'),
                deltaTexts_cons_textDelta, hround.2.1]
        rw [hdel, List.singleton_append]
        show (provider msgs).text ++ _ =
          (provider msgs).text ++ concatAll _
        rw [ihrec.2.2]

/-- **C2.** The tool round-trip loop never performs more than
`MAX_TOOL_ROUNDS = 10` provider rounds per turn; and for every provider
stream that requests another tool call on every round, after exactly 10
rounds the round-ceiling warning is emitted exactly once, the loop
terminates, and it returns exactly the text accumulated so far (the
concatenation of all `text_delta` events of the turn). -/
theorem streamChat_round_ceiling (provider : List Msg → RoundResponse)
    (approve : ToolCallBlock → Bool) (exec : ToolCallBlock → ToolResult)
    (msgs : List Msg) :
    (streamChatLoop provider approve exec msgs).providerCalls ≤
      MAX_TOOL_ROUNDS ∧
    ((∀ ms, (provider ms).stopReason = some "tool_use" ∧
        (provider ms).calls ≠ []) →
      (streamChatLoop provider approve exec msgs).providerCalls = 10 ∧
      warningCount (streamChatLoop provider approve exec msgs).events = 1 ∧
      (streamChatLoop provider approve exec msgs).text =
        concatAll (deltaTexts
          (streamChatLoop provider approve exec msgs).events)) := by
  refine ⟨loopAux_providerCalls_le provider approve exec MAX_TOOL_ROUNDS msgs,
    ?_⟩
  intro H
  have h := loopAux_always_tool provider approve exec H MAX_TOOL_ROUNDS msgs
  exact ⟨h.1, by simpa using h.2.1, h.2.2⟩

/-- Provider stub that always requests one more `list_dir` call. -/
def stubProvider : List Msg → RoundResponse :=
  fun _ => ⟨"hi", [⟨"toolu_1", "list_dir", "args"⟩], some "tool_use", 3, 2⟩

/-- Approval stub that approves everything. -/
def stubApprove : ToolCallBlock → Bool := fun _ => true

/-- Executor stub that always succeeds. -/
def stubExec : ToolCallBlock → ToolResult := fun _ => ⟨"ok", false, false⟩

/-- Witness for C2: with the always-tool-calling stub, the loop runs
exactly 10 rounds, warns once, and returns the accumulated text. -/
theorem streamChat_round_ceiling_witness :
    (streamChatLoop stubProvider stubApprove stubExec
      [Msg.user "go"]).providerCalls = 10 ∧
    warningCount (streamChatLoop stubProvider stubApprove stubExec
      [Msg.user "go"]).events = 1 ∧
    (streamChatLoop stubProvider stubApprove stubExec [Msg.user "go"]).text =
      concatAll (deltaTexts (streamChatLoop stubProvider stubApprove stubExec
        [Msg.user "go"]).events) :=
  (streamChat_round_ceiling stubProvider stubApprove stubExec
    [Msg.user "go"]).2 (fun _ => ⟨rfl, List.cons_ne_nil _ _⟩)

/-- The matcher's result does not depend on the fuel, as long as the fuel
exceeds `tokens.length + input.length` (every step consumes a token or a
character). -/
theorem rmatch_fuel_invariant (ci : Bool) :
    ∀ (f g : Nat) (ts : List RTok) (s : List Char),
      ts.length + s.length < f → ts.length + s.length < g →
      rmatch ci f ts s = rmatch ci g ts s := by
  intro f
  induction f with
  | zero => intro g ts s hf _; omega
  | succ f ihf =>
      intro g ts s hf hg
      cases g with
      | zero => omega
      | succ g =>
          cases ts with
          | nil => rfl
          | cons t ts =>
              cases t with
              | lit c =>
                  cases s with
                  | nil => rfl
                  | cons d rest =>
                      simp only [rmatch]
                      rw [ihf g ts rest (by simp at hf ⊢; omega)
                        (by simp at hg ⊢; omega)]
              | anyChar =>
                  cases s with
                  | nil => rfl
                  | cons d rest =>
                      simp only [rmatch]
                      exact ihf g ts rest (by simp at hf ⊢; omega)
                        (by simp at hg ⊢; omega)
              | starNonSep =>
                  cases s with
                  | nil =>
                      simp only [rmatch]
                      rw [ihf g ts [] (by simp at hf ⊢; omega)
                        (by simp at hg ⊢; omega)]
                  | cons d rest =>
                      simp only [rmatch]
                      rw [ihf g ts (d :: rest) (by simp at hf ⊢; omega)
                        (by simp at hg ⊢; omega),
                        ihf g (.starNonSep :: ts) rest
                          (by simp at hf ⊢; omega)
                          (by simp at hg ⊢; omega)]

/-- `rmatchFull` equals `rmatch` at any sufficient fuel. -/
theorem rmatchFull_eq_rmatch (ci : Bool) (ts : List RTok) (s : List Char)
    (f : Nat) (hf : ts.length + s.length < f) :
    rmatchFull ci ts s = rmatch ci f ts s :=
  rmatch_fuel_invariant ci (ts.length + s.length + 1) f ts s
    (Nat.lt_succ_self _) hf

/-- One-step equation: literal token against a nonempty input. -/
theorem rmatchFull_lit_cons (ci : Bool) (c : Char) (ts : List RTok)
    (d : Char) (s : List Char) :
    rmatchFull ci (.lit c :: ts) (d :: s) =
      ((if ci then decide (asciiLowerChar c = asciiLowerChar d)
        else decide (c = d)) && rmatchFull ci ts s) := by
  rw [rmatchFull_eq_rmatch ci (.lit c :: ts) (d :: s)
    (ts.length + s.length + 3) (by simp; omega)]
  simp only [rmatch]
  rw [← rmatchFull_eq_rmatch ci ts s (ts.length + s.length + 2) (by omega)]

/-- One-step equation: `.` (any character) against a nonempty input. -/
theorem rmatchFull_any_cons (ci : Bool) (ts : List RTok) (d : Char)
    (s : List Char) :
    rmatchFull ci (.anyChar :: ts) (d :: s) = rmatchFull ci ts s := by
  rw [rmatchFull_eq_rmatch ci (.anyChar :: ts) (d :: s)
    (ts.length + s.length + 3) (by simp; omega)]
  simp only [rmatch]
  rw [← rmatchFull_eq_rmatch ci ts s (ts.length + s.length + 2) (by omega)]

/-- One-step equation: `[^/]*` against the empty input. -/
theorem rmatchFull_star_nil (ci : Bool) (ts : List RTok) :
    rmatchFull ci (.starNonSep :: ts) [] = rmatchFull ci ts [] := by
  show (rmatchFull ci ts [] || false) = rmatchFull ci ts []
  exact Bool.or_false _

/-- One-step equation: `[^/]*` against a nonempty input. -/
theorem rmatchFull_star_cons (ci : Bool) (ts : List RTok) (d : Char)
    (s : List Char) :
    rmatchFull ci (.starNonSep :: ts) (d :: s) =
      (rmatchFull ci ts (d :: s) ||
        (decide (d ≠ '/') && rmatchFull ci (.starNonSep :: ts) s)) := by
  obtain ⟨G, hG⟩ : ∃ G, ts.length + s.length + 2 = G := ⟨_, rfl⟩
  rw [rmatchFull_eq_rmatch ci (.starNonSep :: ts) (d :: s) (G + 1)
    (by simp only [List.length_cons]; omega)]
  simp only [rmatch]
  rw [← rmatchFull_eq_rmatch ci ts (d :: s) G
    (by simp only [List.length_cons]; omega),
    ← rmatchFull_eq_rmatch ci (.starNonSep :: ts) s G
      (by simp only [List.length_cons]; omega)]

/-- `[^/]*` semantics: it consumes an arbitrary run of non-separator
characters. -/
theorem rmatchFull_star_iff (ci : Bool) (ts : List RTok) :
    ∀ s : List Char,
      rmatchFull ci (.starNonSep :: ts) s = true ↔
        ∃ a b, s = a ++ b ∧ (∀ c ∈ a, c ≠ '/') ∧
          rmatchFull ci ts b = true := by
  intro s
  induction s with
  | nil =>
      rw [rmatchFull_star_nil]
      constructor
      · intro h
        exact ⟨[], [], rfl, fun c hc => absurd hc (List.not_mem_nil c), h⟩
      · rintro ⟨a, b, hab, _, hb⟩
        obtain ⟨ha, hb'⟩ := List.append_eq_nil.mp hab.symm
        subst ha; subst hb'
        exact hb
  | cons d rest ih =>
      rw [rmatchFull_star_cons]
      constructor
      · intro h
        rcases Bool.or_eq_true_iff.mp h with h1 | h2
        · refine ⟨[], d :: rest, rfl, ?_, h1⟩
          intro c hc
          exact absurd hc (List.not_mem_nil c)
        · obtain ⟨hd, hrec⟩ := Bool.and_eq_true_iff.mp h2
          obtain ⟨a, b, hab, hnos, hb⟩ := ih.mp hrec
          refine ⟨d :: a, b, by rw [hab]; rfl, ?_, hb⟩
          intro c hc
          rcases List.mem_cons.mp hc with hc | hc
          · subst hc; exact of_decide_eq_true hd
          · exact hnos c hc
      · rintro ⟨a, b, hab, hnos, hb⟩
        cases a with
        | nil =>
            simp only [List.nil_append] at hab
            subst hab
            rw [hb]
            simp
        | cons a0 as =>
            simp only [List.cons_append, List.cons.injEq] at hab
            obtain ⟨ha0, hrest⟩ := hab
            subst ha0
            have : rmatchFull ci (.starNonSep :: ts) rest = true := by
              refine ih.mpr ⟨as, b, hrest, ?_, hb⟩
              intro c hc
              exact hnos c (List.mem_cons_of_mem _ hc)
            rw [this]
            have hd : decide (d ≠ '/') = true :=
              decide_eq_true (hnos d (List.mem_cons_self _ _))
            rw [hd]
            simp

/-- `.` (any character) semantics: it consumes exactly one character,
separator included. -/
theorem rmatchFull_any_iff (ci : Bool) (ts : List RTok) (s : List Char) :
    rmatchFull ci (.anyChar :: ts) s = true ↔
      ∃ c b, s = c :: b ∧ rmatchFull ci ts b = true := by
  cases s with
  | nil =>
      constructor
      · intro h
        have hfalse : rmatchFull ci (.anyChar :: ts) [] = false := rfl
        rw [hfalse] at h
        exact absurd h Bool.false_ne_true
      · rintro ⟨c, b, hcb, -⟩
        cases hcb
  | cons d rest =>
      rw [rmatchFull_any_cons]
      constructor
      · intro h
        exact ⟨d, rest, rfl, h⟩
      · rintro ⟨c, b, hcb, hb⟩
        injection hcb with h1 h2
        rw [h2]
        exact hb

/-- Anchoring: the empty compiled regex accepts only the empty input. -/
theorem rmatchFull_nil_iff (ci : Bool) (s : List Char) :
    rmatchFull ci [] s = true ↔ s = [] := by
  cases s with
  | nil => simp [rmatchFull, rmatch]
  | cons d rest =>
      constructor
      · intro h
        exact absurd h (by simp [rmatchFull, rmatch])
      · intro h
        cases h

/-- Case-insensitive literal matching: a literal token accepts any
character with the same ASCII lowering (the regex `i` flag). -/
theorem rmatchFull_lit_ci (c d : Char) (ts : List RTok) (s : List Char)
    (h : asciiLowerChar c = asciiLowerChar d) :
    rmatchFull true (.lit c :: ts) (d :: s) = rmatchFull true ts s := by
  rw [rmatchFull_lit_cons]
  simp [h]

/-- **C9, counterexample.** The compiled matcher does *not* realize the
spec-side glob semantics: because the `/\*/g → "[^/]*"` pass also rewrites
the `*` that the `/\*\*/g → ".*"` pass just introduced, `**` compiles to
`.[^/]*` (one arbitrary character followed by a run of non-separator
characters) instead of `.*`.  Concretely, the pattern `**` fails to match
`a/b`, which the spec-side matcher (where `**` matches across path
separators) accepts. -/
theorem matchesPattern_spec_counterexample :
    ¬ (∀ filename pattern : String,
        matchesPattern filename pattern = specGlobMatch pattern filename) := by
  intro h
  have hx := h "a/b" "**"
  rw [show matchesPattern "a/b" "**" = false from by decide,
    show specGlobMatch "**" "a/b" = true from by decide] at hx
  exact Bool.false_ne_true hx

/-- **C9, amended.** The `search_files` glob is compiled to an anchored,
case-insensitive matcher in which `*` matches any run of characters except
the path separator, `?` matches exactly one character, and `**` compiles to
one arbitrary character followed by a run of non-separator characters (so
it does *not* match across more than one path separator and never matches
the empty string); only the portion of the pattern after the last `/` is
used, matched against entry basenames.  In particular
`search_files("*.ts", ".")` over a directory containing `a.ts`, `b.md`,
and `node_modules/x.ts` returns exactly `["a.ts"]`. -/
theorem matchesPattern_compiled_semantics :
    (∀ ps : List Char, compileGlob ('*' :: '*' :: ps) =
      .anyChar :: .starNonSep :: compileGlob ps) ∧
    (∀ (ci : Bool) (ts : List RTok) (s : List Char),
      rmatchFull ci (.starNonSep :: ts) s = true ↔
        ∃ a b, s = a ++ b ∧ (∀ c ∈ a, c ≠ '/') ∧
          rmatchFull ci ts b = true) ∧
    (∀ (ci : Bool) (ts : List RTok) (s : List Char),
      rmatchFull ci (.anyChar :: ts) s = true ↔
        ∃ c b, s = c :: b ∧ rmatchFull ci ts b = true) ∧
    (∀ (ci : Bool) (s : List Char), rmatchFull ci [] s = true ↔ s = []) ∧
    (∀ (c d : Char) (ts : List RTok) (s : List Char),
      asciiLowerChar c = asciiLowerChar d →
      rmatchFull true (.lit c :: ts) (d :: s) = rmatchFull true ts s) ∧
    searchFilesMatches "/work" "" (fun _ => none) [] "*.ts" "."
      [.file "a.ts", .file "b.md", .dir "node_modules" [.file "x.ts"]] =
      ["a.ts"] :=
  ⟨fun ps => rfl,
   fun ci ts s => rmatchFull_star_iff ci ts s,
   fun ci ts s => rmatchFull_any_iff ci ts s,
   fun ci s => rmatchFull_nil_iff ci s,
   fun c d ts s h => rmatchFull_lit_ci c d ts s h,
   by decide⟩

/-- Witness for C9 (amended): the case-insensitive literal equation at
`T`/`t`, and the `[^/]*` characterization applied to a concrete
separator-free run. -/
theorem matchesPattern_compiled_semantics_witness :
    rmatchFull true [RTok.lit 'T'] ['t'] = rmatchFull true [] [] ∧
    rmatchFull true [RTok.starNonSep] ['a', 'b'] = true := by
  constructor
  · exact matchesPattern_compiled_semantics.2.2.2.2.1 'T' 't' [] []
      (by decide)
  · exact (matchesPattern_compiled_semantics.2.1 true [] ['a', 'b']).mpr
      ⟨['a', 'b'], [], rfl, by decide, by decide⟩
